import Mathlib

/-!
# Verification of the Snake Hunt game engine

Shallow embedding of `src/components/SnakeGame.tsx`: the game constants,
the `Cell`/`Direction` data model, the session state held in the React
component's `useState` hooks, and the state-mutating operations
`placeFood`, `handleKeyDown`, `handleDirectionButton`, `moveSnake`,
`startGame` and `togglePause`.

Modelling notes, faithful to the source:
* Coordinates are integers (`Int`), since a tick can compute `-1` or `20`
  before the bounds check rejects it.
* `Math.floor(Math.random() * GRID_SIZE)` is modelled as an oracle stream
  `ρ : Nat → Cell` of candidate cells consumed left to right; the
  recursive retry in `placeFood` becomes a fuel-indexed search
  (`placeFoodAux`) returning `none` when the fuel runs out, so
  non-termination of the resampling loop is representable.
* `placeFood` is a `useCallback` closed over the `snake` state of the
  current render.  When it runs inside `moveSnake`'s `setSnake` updater,
  or right after `setSnake` in `startGame`, that closure still holds the
  previously committed (pre-tick / pre-restart) snake.  The embedding
  therefore checks food candidates against the snake *passed in as the
  pre-call state*, exactly as the closure does.
* The toast fired on game over is modelled as the `Option Nat` component
  of `moveSnake`'s result: `some score` on the terminal transition,
  `none` otherwise.
-/

/-- `GRID_SIZE` constant of the source (20). -/
def GRID_SIZE : Int := 20

/-- `INITIAL_SPEED` constant of the source (150). -/
def INITIAL_SPEED : Nat := 150

/-- `SPEED_INCREASE` constant of the source (5): the per-food decrement of
the tick interval. -/
def SPEED_INCREASE : Nat := 5

/-- The `Direction` enum of the source. -/
inductive Direction where
  | UP
  | DOWN
  | LEFT
  | RIGHT
deriving DecidableEq, Repr

/-- The `Cell` type of the source: an integer coordinate pair. -/
structure Cell where
  x : Int
  y : Int
deriving DecidableEq, Repr

/-- The component state: one field per `useState` hook of `SnakeGame`
(the `direction` state and the `directionRef` shadow are updated together
at every site in the source, so a single field represents both). -/
structure GameState where
  snake : List Cell
  food : Cell
  direction : Direction
  gameOver : Bool
  isPaused : Bool
  score : Nat
  speed : Nat
  gameStarted : Bool
deriving DecidableEq, Repr

/-- The initial hook values: `useState([{x:8,y:8}])`, `useState({x:5,y:5})`,
`useState(Direction.RIGHT)`, `useState(false)`, `useState(false)`,
`useState(0)`, `useState(INITIAL_SPEED)`, `useState(false)`. -/
def initialState : GameState :=
  { snake := [⟨8, 8⟩]
    food := ⟨5, 5⟩
    direction := Direction.RIGHT
    gameOver := false
    isPaused := false
    score := 0
    speed := INITIAL_SPEED
    gameStarted := false }

/-- `snake.some(segment => segment.x === c.x && segment.y === c.y)`:
the occupancy test used both by the self-collision check in `moveSnake`
and by the retry condition in `placeFood`. -/
def occupies (snake : List Cell) (c : Cell) : Bool :=
  snake.any fun segment => segment.x == c.x && segment.y == c.y

/-- The recursive retry of `placeFood`: draw `ρ i`, retry on collision
with the `snake` closure value.  `fuel` bounds the recursion depth;
`none` models a run that never finds a free cell within the fuel. -/
def placeFoodAux (snake : List Cell) (ρ : Nat → Cell) : Nat → Nat → Option Cell
  | _, 0 => none
  | i, fuel + 1 =>
    let newFood := ρ i
    if occupies snake newFood then placeFoodAux snake ρ (i + 1) fuel
    else some newFood

/-- `placeFood` as invoked in the source: the search starts at the head
of the random stream.  `snake` is the closure-captured snake of the
current render (the state committed before the call site runs). -/
def placeFood (snake : List Cell) (ρ : Nat → Cell) (fuel : Nat) : Option Cell :=
  placeFoodAux snake ρ 0 fuel

/-- The keys distinguished by the `switch` in `handleKeyDown`. -/
inductive Key where
  | arrowUp
  | arrowDown
  | arrowLeft
  | arrowRight
  | space
  | other
deriving DecidableEq, Repr

/-- `togglePause`: `setIsPaused(prev => !prev)`.  The source gates it
nowhere — no `gameStarted`/`gameOver` check. -/
def togglePause (s : GameState) : GameState :=
  { s with isPaused := !s.isPaused }

/-- `handleKeyDown`: each arrow key sets the direction unless the current
`directionRef` is its exact opposite; space toggles pause; everything
else falls through.  The source performs no session-state check here. -/
def handleKeyDown (k : Key) (s : GameState) : GameState :=
  match k with
  | Key.arrowUp =>
    if s.direction ≠ Direction.DOWN then { s with direction := Direction.UP } else s
  | Key.arrowDown =>
    if s.direction ≠ Direction.UP then { s with direction := Direction.DOWN } else s
  | Key.arrowLeft =>
    if s.direction ≠ Direction.RIGHT then { s with direction := Direction.LEFT } else s
  | Key.arrowRight =>
    if s.direction ≠ Direction.LEFT then { s with direction := Direction.RIGHT } else s
  | Key.space => togglePause s
  | Key.other => s

/-- `handleDirectionButton`: same guard as the keyboard path, written as
one disjunction in the source. -/
def handleDirectionButton (newDirection : Direction) (s : GameState) : GameState :=
  if (newDirection = Direction.UP ∧ s.direction ≠ Direction.DOWN)
      ∨ (newDirection = Direction.DOWN ∧ s.direction ≠ Direction.UP)
      ∨ (newDirection = Direction.LEFT ∧ s.direction ≠ Direction.RIGHT)
      ∨ (newDirection = Direction.RIGHT ∧ s.direction ≠ Direction.LEFT) then
    { s with direction := newDirection }
  else s

/-- The direction whose presence as the current direction blocks a given
request: `UP` is blocked when moving `DOWN`, etc. -/
def oppositeOf : Direction → Direction
  | Direction.UP => Direction.DOWN
  | Direction.DOWN => Direction.UP
  | Direction.LEFT => Direction.RIGHT
  | Direction.RIGHT => Direction.LEFT

/-- The head displacement of the `switch (directionRef.current)` in
`moveSnake`. -/
def dirDelta : Direction → Int × Int
  | Direction.UP => (0, -1)
  | Direction.DOWN => (0, 1)
  | Direction.LEFT => (-1, 0)
  | Direction.RIGHT => (1, 0)

/-- The wall check of `moveSnake`:
`head.x < 0 || head.x >= GRID_SIZE || head.y < 0 || head.y >= GRID_SIZE`. -/
def hitsWall (c : Cell) : Bool :=
  c.x < 0 || c.x ≥ GRID_SIZE || c.y < 0 || c.y ≥ GRID_SIZE

/-- The new head computed by `moveSnake`: the old head shifted one cell in
the current direction. -/
def nextHead (h : Cell) (d : Direction) : Cell :=
  ⟨h.x + (dirDelta d).1, h.y + (dirDelta d).2⟩

/-- `moveSnake`, one tick.  Returns the post-tick state and the toast
emitted (`some score` on the terminal transition, otherwise `none`);
`none` overall models a failed run: the `prevSnake[0]` access on an
empty snake, or `placeFood` exhausting its fuel. -/
def moveSnake (ρ : Nat → Cell) (fuel : Nat) (s : GameState) :
    Option (GameState × Option Nat) :=
  if s.gameOver || s.isPaused || !s.gameStarted then some (s, none)
  else
    match s.snake.head? with
    | none => none
    | some h =>
      let head : Cell := nextHead h s.direction
      if hitsWall head || occupies s.snake head then
        some ({ s with gameOver := true }, some s.score)
      else
        let newSnake := head :: s.snake
        if head.x == s.food.x && head.y == s.food.y then
          match placeFood s.snake ρ fuel with
          | none => none
          | some f =>
            some ({ s with
                      snake := newSnake
                      score := s.score + 10
                      food := f
                      speed := max (s.speed - SPEED_INCREASE) 50 }, none)
        else
          some ({ s with snake := newSnake.dropLast }, none)

/-- `startGame`: reset every field to its initial value and place food.
The `placeFood()` call runs before the queued `setSnake` commits, so its
closure checks candidates against the pre-restart snake `s.snake`. -/
def startGame (ρ : Nat → Cell) (fuel : Nat) (s : GameState) : Option GameState :=
  match placeFood s.snake ρ fuel with
  | none => none
  | some f =>
    some { snake := [⟨8, 8⟩]
           food := f
           direction := Direction.RIGHT
           gameOver := false
           isPaused := false
           score := 0
           speed := INITIAL_SPEED
           gameStarted := true }

/-- A cell lies within the 20×20 grid. -/
def inGrid (c : Cell) : Prop :=
  0 ≤ c.x ∧ c.x < GRID_SIZE ∧ 0 ≤ c.y ∧ c.y < GRID_SIZE

instance (c : Cell) : Decidable (inGrid c) := by
  unfold inGrid; infer_instance

/-- The states reachable from component mount through the operations the
UI can trigger: key presses, direction buttons, the pause button, the
start button, and timer ticks. -/
inductive Reachable : GameState → Prop where
  | init : Reachable initialState
  | key {s : GameState} (k : Key) : Reachable s → Reachable (handleKeyDown k s)
  | button {s : GameState} (d : Direction) :
      Reachable s → Reachable (handleDirectionButton d s)
  | pause {s : GameState} : Reachable s → Reachable (togglePause s)
  | start {s s' : GameState} (ρ : Nat → Cell) (fuel : Nat) :
      Reachable s → startGame ρ fuel s = some s' → Reachable s'
  | tick {s s' : GameState} {t : Option Nat} (ρ : Nat → Cell) (fuel : Nat) :
      Reachable s → moveSnake ρ fuel s = some (s', t) → Reachable s'

/-- The arrow key that requests a given direction. -/
def arrowKeyOf : Direction → Key
  | Direction.UP => Key.arrowUp
  | Direction.DOWN => Key.arrowDown
  | Direction.LEFT => Key.arrowLeft
  | Direction.RIGHT => Key.arrowRight

/-- A concrete enumeration of the grid used to instantiate the random
stream: cell `i` is `(i mod 20, (i / 20) mod 20)`, so every grid cell
occurs (a property any uniform sampler has with probability one). -/
def gridStream : Nat → Cell :=
  fun i => ⟨(i % 20 : Nat), ((i / 20) % 20 : Nat)⟩

/-- A running two-segment snake about to move RIGHT from (4,5), with the
food out of the way. -/
def reversalStart : GameState :=
  { snake := [⟨4, 5⟩, ⟨3, 5⟩]
    food := ⟨0, 0⟩
    direction := Direction.RIGHT
    gameOver := false
    isPaused := false
    score := 0
    speed := INITIAL_SPEED
    gameStarted := true }

/-- The state after `reversalStart` ticks once: the snake has just moved
RIGHT onto (5,5). -/
def reversalMid : GameState :=
  { reversalStart with snake := [⟨5, 5⟩, ⟨4, 5⟩] }

/-- A running snake at (4,5) one step left of the food at (5,5). -/
def staleFoodState : GameState :=
  { snake := [⟨4, 5⟩]
    food := ⟨5, 5⟩
    direction := Direction.RIGHT
    gameOver := false
    isPaused := false
    score := 0
    speed := INITIAL_SPEED
    gameStarted := true }

/-! ## Basic lemmas about the operations -/

/-- A cell that passes the wall check lies in the grid. -/
theorem inGrid_of_hitsWall_false {c : Cell} (h : hitsWall c = false) : inGrid c := by
  simp only [hitsWall, Bool.or_eq_false_iff, decide_eq_false_iff_not, not_lt, not_le] at h
  exact ⟨h.1.1.1, h.1.1.2, h.1.2, h.2⟩

/-- Key presses never touch the snake field. -/
theorem handleKeyDown_snake (k : Key) (s : GameState) :
    (handleKeyDown k s).snake = s.snake := by
  cases k <;> simp only [handleKeyDown, togglePause] <;> split <;> rfl

/-- Direction buttons never touch the snake field. -/
theorem handleDirectionButton_snake (d : Direction) (s : GameState) :
    (handleDirectionButton d s).snake = s.snake := by
  unfold handleDirectionButton
  split <;> rfl

/-- A successful draw of `placeFoodAux` avoids the snake it checked. -/
theorem placeFoodAux_sound (snake : List Cell) (ρ : Nat → Cell) :
    ∀ (fuel i : Nat) (f : Cell), placeFoodAux snake ρ i fuel = some f →
      occupies snake f = false
  | 0, _, _, h => by simp [placeFoodAux] at h
  | fuel + 1, i, f, h => by
    unfold placeFoodAux at h
    by_cases hc : occupies snake (ρ i) = true
    · simp only [hc, if_true] at h
      exact placeFoodAux_sound snake ρ fuel (i + 1) f h
    · rw [Bool.not_eq_true] at hc
      simp only [hc, Bool.false_eq_true, if_false, Option.some.injEq] at h
      subst h
      exact hc

/-- `placeFoodAux` succeeds whenever a free cell occurs within the fuel. -/
theorem placeFoodAux_isSome (snake : List Cell) (ρ : Nat → Cell) :
    ∀ (fuel i : Nat), (∃ k, k < fuel ∧ occupies snake (ρ (i + k)) = false) →
      (placeFoodAux snake ρ i fuel).isSome = true
  | 0, _, h => by
    obtain ⟨k, hk, _⟩ := h
    omega
  | fuel + 1, i, h => by
    unfold placeFoodAux
    by_cases hc : occupies snake (ρ i) = true
    · simp only [hc, if_true]
      apply placeFoodAux_isSome snake ρ fuel (i + 1)
      obtain ⟨k, hk, hkf⟩ := h
      cases k with
      | zero => simp only [Nat.add_zero] at hkf; rw [hkf] at hc; cases hc
      | succ k' =>
        refine ⟨k', by omega, ?_⟩
        have : i + 1 + k' = i + (k' + 1) := by omega
        rw [this]
        exact hkf
    · simp [hc]

/-! ## C1: terminal tick -/

/-- C1.  In a running session (started, not paused, not over), when the
computed new head leaves `[0, GRID_SIZE)` on either axis or coincides
with a segment of the pre-tick body, the tick sets `gameOver`, leaves
every other field — in particular the snake — unchanged, and emits
exactly one game-over notification carrying the current score. -/
theorem moveSnake_terminal (ρ : Nat → Cell) (fuel : Nat) (s : GameState)
    (h0 : Cell)
    (hover : s.gameOver = false) (hpause : s.isPaused = false)
    (hstart : s.gameStarted = true) (hhead : s.snake.head? = some h0)
    (hterm : hitsWall (nextHead h0 s.direction) = true ∨
      occupies s.snake (nextHead h0 s.direction) = true) :
    moveSnake ρ fuel s = some ({ s with gameOver := true }, some s.score) := by
  unfold moveSnake
  rw [hover, hpause, hstart, hhead]
  rcases hterm with h | h <;> simp [h]

/-- Witness for C1: the spec's scenario — a running singleton snake at
`x = 0` moving LEFT computes head `x = -1`, dies in place, and fires the
notification with its score (0). -/
theorem moveSnake_terminal_witness :
    moveSnake (fun _ => ⟨0, 0⟩) 1
      { initialState with gameStarted := true, snake := [⟨0, 5⟩],
                          direction := Direction.LEFT } =
    some ({ initialState with gameStarted := true, snake := [⟨0, 5⟩],
                              direction := Direction.LEFT, gameOver := true },
          some 0) :=
  moveSnake_terminal _ _ _ ⟨0, 5⟩ rfl rfl rfl rfl (Or.inl rfl)

/-! ## C2: food-consumption tick -/

/-- C2.  In a running session where the new head stays in bounds, misses
the pre-tick body, and lands on the food: the score rises by exactly 10,
the speed interval becomes `max (speed - 5) 50` (a decrement of exactly
5 whenever the current speed is at least 55, and never below the floor
50), the tail is kept so the snake grows by exactly one segment, and the
food is re-placed with the cell `placeFood` commits. -/
theorem moveSnake_eat (ρ : Nat → Cell) (fuel : Nat) (s : GameState)
    (h0 f : Cell)
    (hover : s.gameOver = false) (hpause : s.isPaused = false)
    (hstart : s.gameStarted = true) (hhead : s.snake.head? = some h0)
    (hwall : hitsWall (nextHead h0 s.direction) = false)
    (hself : occupies s.snake (nextHead h0 s.direction) = false)
    (hfood : nextHead h0 s.direction = s.food)
    (hplace : placeFood s.snake ρ fuel = some f) :
    moveSnake ρ fuel s =
      some ({ s with snake := nextHead h0 s.direction :: s.snake
                     score := s.score + 10
                     food := f
                     speed := max (s.speed - SPEED_INCREASE) 50 }, none)
    ∧ (nextHead h0 s.direction :: s.snake).length = s.snake.length + 1
    ∧ 50 ≤ max (s.speed - SPEED_INCREASE) 50
    ∧ (55 ≤ s.speed → max (s.speed - SPEED_INCREASE) 50 = s.speed - 5) := by
  refine ⟨?_, by simp, by omega, by intro h; simp [SPEED_INCREASE]; omega⟩
  unfold moveSnake
  rw [hover, hpause, hstart, hhead]
  simp only [hwall, hself, Bool.or_self, Bool.false_or, Bool.or_false,
    Bool.false_eq_true, if_false]
  rw [← hfood]
  simp [hplace]

/-- Witness for C2: a running snake at (4,5) moving RIGHT onto food at
(5,5); the stream offers (0,0), which is free, so the food moves there;
score 0 → 10, speed 150 → 145, length 1 → 2. -/
theorem moveSnake_eat_witness :
    (moveSnake (fun _ => ⟨0, 0⟩) 1
      { initialState with gameStarted := true, snake := [⟨4, 5⟩],
                          food := ⟨5, 5⟩ } =
      some ({ initialState with gameStarted := true, snake := [⟨5, 5⟩, ⟨4, 5⟩],
                                food := ⟨0, 0⟩, score := 10, speed := 145 },
            none))
    ∧ ([(⟨5, 5⟩ : Cell), ⟨4, 5⟩]).length = [(⟨4, 5⟩ : Cell)].length + 1 := by
  have h := moveSnake_eat (fun _ => ⟨0, 0⟩) 1
    { initialState with gameStarted := true, snake := [⟨4, 5⟩], food := ⟨5, 5⟩ }
    ⟨4, 5⟩ ⟨0, 0⟩ rfl rfl rfl rfl rfl rfl rfl rfl
  exact ⟨h.1, h.2.1⟩

/-! ## C3: plain translation tick -/

/-- C3.  In a running session where the new head stays in bounds, misses
the pre-tick body, and does not land on the food: the new snake is the
new head prepended to the old body with the last segment removed, so the
length — and the score, speed and food — are unchanged. -/
theorem moveSnake_translate (ρ : Nat → Cell) (fuel : Nat) (s : GameState)
    (h0 : Cell)
    (hover : s.gameOver = false) (hpause : s.isPaused = false)
    (hstart : s.gameStarted = true) (hhead : s.snake.head? = some h0)
    (hwall : hitsWall (nextHead h0 s.direction) = false)
    (hself : occupies s.snake (nextHead h0 s.direction) = false)
    (hfood : nextHead h0 s.direction ≠ s.food) :
    moveSnake ρ fuel s =
      some ({ s with snake := (nextHead h0 s.direction :: s.snake).dropLast },
            none)
    ∧ (nextHead h0 s.direction :: s.snake).dropLast.length = s.snake.length := by
  have hne : ((nextHead h0 s.direction).x == s.food.x &&
      (nextHead h0 s.direction).y == s.food.y) = false := by
    rw [Bool.eq_false_iff]
    intro hcon
    rw [Bool.and_eq_true, beq_iff_eq, beq_iff_eq] at hcon
    obtain ⟨hx, hy⟩ := hcon
    apply hfood
    calc nextHead h0 s.direction
        = ⟨(nextHead h0 s.direction).x, (nextHead h0 s.direction).y⟩ := rfl
      _ = ⟨s.food.x, s.food.y⟩ := by rw [hx, hy]
      _ = s.food := rfl
  constructor
  · unfold moveSnake
    rw [hover, hpause, hstart, hhead]
    simp [hwall, hself, hne]
  · rw [List.length_dropLast, List.length_cons]
    omega

/-- Witness for C3: the spec's scenario — a running length-1 snake at
(8,8) moving RIGHT with the food elsewhere translates to the single
segment (9,8). -/
theorem moveSnake_translate_witness :
    (moveSnake (fun _ => ⟨0, 0⟩) 1 { initialState with gameStarted := true } =
      some ({ initialState with gameStarted := true,
                                snake := [(⟨9, 8⟩ : Cell), ⟨8, 8⟩].dropLast },
            none))
    ∧ ([(⟨9, 8⟩ : Cell), ⟨8, 8⟩]).dropLast.length = [(⟨8, 8⟩ : Cell)].length := by
  have h := moveSnake_translate (fun _ => ⟨0, 0⟩) 1
    { initialState with gameStarted := true } ⟨8, 8⟩ rfl rfl rfl rfl rfl rfl
    (by intro h; cases h)
  exact ⟨h.1, h.2⟩

/-! ## C4: the no-reversal invariant -/

/-- Counterexample for C4.  Two requests between ticks defeat the
no-reversal rule: after a tick that moved the snake RIGHT, pressing UP
and then LEFT is accepted (each request is only checked against the
*pending* direction), leaving an effective direction LEFT — the exact
opposite of the last actual movement — and the next tick duly walks the
snake back into its own neck and ends the game. -/
theorem reversal_across_two_requests_cex :
    moveSnake (fun _ => ⟨0, 0⟩) 1 reversalStart = some (reversalMid, none)
    ∧ reversalMid.direction = Direction.RIGHT
    ∧ (handleKeyDown Key.arrowLeft (handleKeyDown Key.arrowUp reversalMid)).direction
        = oppositeOf Direction.RIGHT
    ∧ moveSnake (fun _ => ⟨0, 0⟩) 1
        (handleKeyDown Key.arrowLeft (handleKeyDown Key.arrowUp reversalMid))
      = some ({ reversalMid with direction := Direction.LEFT, gameOver := true },
              some 0) :=
  ⟨rfl, rfl, rfl, rfl⟩

/-- C4 (amended).  The guard compares a request against the *pending*
direction only: a request is a no-op exactly when it is the exact
opposite of the most recently accepted request, and otherwise sets the
pending direction — via the keyboard and the button handler alike, in
any session state.  (Only single requests per tick window are protected;
see the counterexample for a reversal reached through two requests.) -/
theorem request_guard_pending (d : Direction) (s : GameState) :
    handleDirectionButton d s = handleKeyDown (arrowKeyOf d) s
    ∧ handleKeyDown (arrowKeyOf d) s =
        (if s.direction = oppositeOf d then s else { s with direction := d }) := by
  cases s with
  | mk snake food direction gameOver isPaused score speed gameStarted =>
    cases d <;> cases direction <;>
      simp [handleKeyDown, handleDirectionButton, arrowKeyOf, oppositeOf]

/-! ## C5: food placement against the stale snake -/

/-- C5 exhibit.  On a food-consumption tick the `placeFood` closure
checks candidates against the *pre-tick* snake, so the freed-up food
cell itself is an acceptable candidate: eating at (5,5) with the stream
offering (5,5) commits the new food onto the grown snake's new head. -/
theorem placeFood_commits_food_on_new_head :
    moveSnake (fun _ => ⟨5, 5⟩) 1 staleFoodState =
      some ({ staleFoodState with snake := [⟨5, 5⟩, ⟨4, 5⟩], score := 10,
                                  food := ⟨5, 5⟩, speed := 145 }, none)
    ∧ occupies [(⟨5, 5⟩ : Cell), ⟨4, 5⟩] ⟨5, 5⟩ = true :=
  ⟨rfl, rfl⟩

/-! ## C6: direction requests and session flags -/

/-- Counterexample for C6.  Neither input handler consults the session
flags: an arrow key pressed before the game has started — and a
direction button pressed after it is over — still rewrite the pending
direction, so the session state does not stay unchanged. -/
theorem direction_request_while_idle_cex :
    initialState.gameStarted = false
    ∧ initialState.direction = Direction.RIGHT
    ∧ (handleKeyDown Key.arrowUp initialState).direction = Direction.UP
    ∧ (handleDirectionButton Direction.UP
        { initialState with gameOver := true }).direction = Direction.UP :=
  ⟨rfl, rfl, rfl, rfl⟩

/-- C6 (amended).  A direction request touches only the direction field,
and whether it is accepted is decided solely by the reversal guard — the
`started`/`paused`/`over` flags play no role: the direction produced is
the same in every combination of the three flags. -/
theorem direction_request_ignores_session_flags (d : Direction) (s : GameState)
    (b₁ b₂ b₃ : Bool) :
    (handleKeyDown (arrowKeyOf d) s).snake = s.snake
    ∧ (handleKeyDown (arrowKeyOf d) s).food = s.food
    ∧ (handleKeyDown (arrowKeyOf d) s).score = s.score
    ∧ (handleKeyDown (arrowKeyOf d) s).speed = s.speed
    ∧ (handleKeyDown (arrowKeyOf d) s).gameOver = s.gameOver
    ∧ (handleKeyDown (arrowKeyOf d) s).isPaused = s.isPaused
    ∧ (handleKeyDown (arrowKeyOf d) s).gameStarted = s.gameStarted
    ∧ (handleKeyDown (arrowKeyOf d)
        { s with gameOver := b₁, isPaused := b₂, gameStarted := b₃ }).direction
      = (handleKeyDown (arrowKeyOf d) s).direction
    ∧ (handleDirectionButton d
        { s with gameOver := b₁, isPaused := b₂, gameStarted := b₃ }).direction
      = (handleDirectionButton d s).direction := by
  cases s with
  | mk snake food direction gameOver isPaused score speed gameStarted =>
    cases d <;> cases direction <;>
      simp [handleKeyDown, handleDirectionButton, arrowKeyOf]

/-! ## C7: togglePause and session flags -/

/-- Counterexample for C7.  `togglePause` has no guard: invoked through
the space-bar binding before the game has started, and directly after a
game is over, it still flips the paused flag. -/
theorem togglePause_while_idle_cex :
    initialState.gameStarted = false
    ∧ initialState.isPaused = false
    ∧ handleKeyDown Key.space initialState
        = { initialState with isPaused := true }
    ∧ togglePause { initialState with gameStarted := true, gameOver := true }
        = { initialState with
              gameStarted := true
              gameOver := true
              isPaused := true } :=
  ⟨rfl, rfl, rfl, rfl⟩

/-- C7 (amended).  `togglePause` — and the space-bar binding, which calls
it verbatim — flips the paused flag unconditionally in every session
state, changes no other field, and is an involution. -/
theorem togglePause_unconditional (s : GameState) :
    handleKeyDown Key.space s = togglePause s
    ∧ (togglePause s).isPaused = !s.isPaused
    ∧ (togglePause s).snake = s.snake
    ∧ (togglePause s).food = s.food
    ∧ (togglePause s).direction = s.direction
    ∧ (togglePause s).score = s.score
    ∧ (togglePause s).speed = s.speed
    ∧ (togglePause s).gameOver = s.gameOver
    ∧ (togglePause s).gameStarted = s.gameStarted
    ∧ togglePause (togglePause s) = s := by
  refine ⟨rfl, rfl, rfl, rfl, rfl, rfl, rfl, rfl, rfl, ?_⟩
  simp [togglePause]

/-! ## C8: start() as a reset -/

/-- Shape of every successful `startGame`: a food cell drawn against the
pre-start snake, with all other fields at their initial values. -/
theorem startGame_some_eq (ρ : Nat → Cell) (fuel : Nat) (s s' : GameState)
    (h : startGame ρ fuel s = some s') :
    ∃ f, placeFood s.snake ρ fuel = some f
      ∧ s' = { snake := [⟨8, 8⟩]
               food := f
               direction := Direction.RIGHT
               gameOver := false
               isPaused := false
               score := 0
               speed := INITIAL_SPEED
               gameStarted := true } := by
  unfold startGame at h
  cases hp : placeFood s.snake ρ fuel with
  | none => rw [hp] at h; cases h
  | some f =>
    rw [hp] at h
    injection h with h
    exact ⟨f, rfl, h.symm⟩

/-- Counterexample for C8.  Restarting after a game lost with the snake
at (3,3) while the stream offers (8,8): the placement check runs against
the stale pre-restart snake, accepts (8,8), and the "freshly placed"
food sits exactly on the reset snake's only segment — not placed per the
placement rule relative to the reset snake. -/
theorem startGame_food_on_reset_snake_cex :
    startGame (fun _ => ⟨8, 8⟩) 1
        { initialState with snake := [⟨3, 3⟩], gameStarted := true,
                            gameOver := true }
      = some { initialState with food := ⟨8, 8⟩, gameStarted := true }
    ∧ occupies [(⟨8, 8⟩ : Cell)] ⟨8, 8⟩ = true :=
  ⟨rfl, rfl⟩

/-- C8 (amended).  After `start()` from any prior session state, every
field equals its documented initial value — snake `[(8,8)]`, direction
RIGHT, score 0, speed 150, started, not paused, not over — and the food
is freshly sampled; but the freshness check runs against the *pre-start*
snake (the stale closure), not the reset snake, so disjointness is only
guaranteed from the old body. -/
theorem startGame_resets_fields (ρ : Nat → Cell) (fuel : Nat) (s s' : GameState)
    (h : startGame ρ fuel s = some s') :
    s'.snake = [⟨8, 8⟩]
    ∧ s'.direction = Direction.RIGHT
    ∧ s'.score = 0
    ∧ s'.speed = INITIAL_SPEED
    ∧ s'.gameStarted = true
    ∧ s'.isPaused = false
    ∧ s'.gameOver = false
    ∧ placeFood s.snake ρ fuel = some s'.food
    ∧ occupies s.snake s'.food = false := by
  obtain ⟨f, hp, rfl⟩ := startGame_some_eq ρ fuel s s' h
  exact ⟨rfl, rfl, rfl, rfl, rfl, rfl, rfl, hp,
    placeFoodAux_sound s.snake ρ fuel 0 f hp⟩

/-- Witness for C8 (amended): a fresh start from the idle state with the
stream offering (2,2). -/
theorem startGame_resets_fields_witness :
    ({ initialState with food := ⟨2, 2⟩, gameStarted := true } : GameState).snake
        = [⟨8, 8⟩]
    ∧ ({ initialState with food := ⟨2, 2⟩, gameStarted := true } : GameState).direction
        = Direction.RIGHT
    ∧ ({ initialState with food := ⟨2, 2⟩, gameStarted := true } : GameState).score = 0
    ∧ ({ initialState with food := ⟨2, 2⟩, gameStarted := true } : GameState).speed
        = INITIAL_SPEED
    ∧ ({ initialState with food := ⟨2, 2⟩, gameStarted := true } : GameState).gameStarted
        = true
    ∧ ({ initialState with food := ⟨2, 2⟩, gameStarted := true } : GameState).isPaused
        = false
    ∧ ({ initialState with food := ⟨2, 2⟩, gameStarted := true } : GameState).gameOver
        = false
    ∧ placeFood initialState.snake (fun _ => ⟨2, 2⟩) 1
        = some ({ initialState with food := ⟨2, 2⟩, gameStarted := true } : GameState).food
    ∧ occupies initialState.snake
        ({ initialState with food := ⟨2, 2⟩, gameStarted := true } : GameState).food
        = false :=
  startGame_resets_fields (fun _ => ⟨2, 2⟩) 1 initialState
    { initialState with food := ⟨2, 2⟩, gameStarted := true } rfl

/-! ## C9: termination of the food placement retry -/

/-- The enumerating stream visits every grid cell. -/
theorem gridStream_fair : ∀ c : Cell, inGrid c → ∃ i, gridStream i = c := by
  intro c hc
  obtain ⟨hx0, hx, hy0, hy⟩ := hc
  rw [show GRID_SIZE = (20 : Int) from rfl] at hx hy
  refine ⟨c.x.toNat + 20 * c.y.toNat, ?_⟩
  unfold gridStream
  have hxlt : c.x.toNat < 20 := by omega
  have hylt : c.y.toNat < 20 := by omega
  have h1 : (c.x.toNat + 20 * c.y.toNat) % 20 = c.x.toNat := by omega
  have h2 : (c.x.toNat + 20 * c.y.toNat) / 20 % 20 = c.y.toNat := by omega
  rw [h1, h2]
  have ex : ((c.x.toNat : Int)) = c.x := Int.toNat_of_nonneg hx0
  have ey : ((c.y.toNat : Int)) = c.y := Int.toNat_of_nonneg hy0
  calc (⟨(c.x.toNat : Int), (c.y.toNat : Int)⟩ : Cell)
      = ⟨c.x, c.y⟩ := by rw [ex, ey]
    _ = c := rfl

/-- C9.  For every snake occupying fewer than all 400 grid cells (i.e.
with some free grid cell) and every random stream that eventually offers
each grid cell — which a uniform sampler does with probability one — the
resampling recursion of `placeFood` terminates: some finite recursion
depth reaches a non-colliding cell and commits it. -/
theorem placeFood_terminates (snake : List Cell) (ρ : Nat → Cell)
    (hfair : ∀ c : Cell, inGrid c → ∃ i, ρ i = c)
    (hfree : ∃ c : Cell, inGrid c ∧ occupies snake c = false) :
    ∃ fuel f, placeFood snake ρ fuel = some f ∧ occupies snake f = false := by
  obtain ⟨c, hc, hocc⟩ := hfree
  obtain ⟨j, hj⟩ := hfair c hc
  have hsome := placeFoodAux_isSome snake ρ (j + 1) 0
    ⟨j, by omega, by rw [Nat.zero_add, hj]; exact hocc⟩
  cases hf : placeFoodAux snake ρ 0 (j + 1) with
  | none => rw [hf] at hsome; cases hsome
  | some f =>
    exact ⟨j + 1, f, hf, placeFoodAux_sound snake ρ (j + 1) 0 f hf⟩

/-- Witness for C9: the initial singleton snake with the enumerating
stream. -/
theorem placeFood_terminates_witness :
    ∃ fuel f, placeFood [(⟨8, 8⟩ : Cell)] gridStream fuel = some f
      ∧ occupies [(⟨8, 8⟩ : Cell)] f = false :=
  placeFood_terminates [⟨8, 8⟩] gridStream gridStream_fair
    ⟨⟨0, 0⟩, by decide, rfl⟩

/-! ## C10: the snake is always non-empty and in bounds -/

/-- A non-empty list has a defined head. -/
theorem head_isSome_of_ne_nil {l : List Cell} (h : l ≠ []) :
    l.head?.isSome = true := by
  cases l with
  | nil => exact absurd rfl h
  | cons a l => rfl

/-- Dropping the last element of a cons whose tail is non-empty leaves a
non-empty list. -/
theorem dropLast_cons_ne_nil {a : Cell} {l : List Cell} (h : l ≠ []) :
    (a :: l).dropLast ≠ [] := by
  cases l with
  | nil => exact absurd rfl h
  | cons b m => simp

/-- The four shapes a successful tick can take: no-op, terminal (snake
untouched), growth by the in-bounds new head, or translation by the
in-bounds new head with the tail dropped. -/
theorem moveSnake_some_cases (ρ : Nat → Cell) (fuel : Nat) (s s' : GameState)
    (t : Option Nat) (h : moveSnake ρ fuel s = some (s', t)) :
    s' = s
    ∨ s' = { s with gameOver := true }
    ∨ (∃ h0 f, s.snake.head? = some h0
        ∧ hitsWall (nextHead h0 s.direction) = false
        ∧ s' = { s with snake := nextHead h0 s.direction :: s.snake
                        score := s.score + 10
                        food := f
                        speed := max (s.speed - SPEED_INCREASE) 50 })
    ∨ (∃ h0, s.snake.head? = some h0
        ∧ hitsWall (nextHead h0 s.direction) = false
        ∧ s' = { s with snake := (nextHead h0 s.direction :: s.snake).dropLast }) := by
  simp only [moveSnake] at h
  split at h
  · left
    injection h with h
    rw [Prod.mk.injEq] at h
    exact h.1.symm
  · split at h
    · simp at h
    · rename_i h0 hh
      split at h
      · right; left
        injection h with h
        rw [Prod.mk.injEq] at h
        exact h.1.symm
      · rename_i hcond
        rw [Bool.not_eq_true, Bool.or_eq_false_iff] at hcond
        split at h
        · split at h
          · simp at h
          · rename_i f hp
            right; right; left
            refine ⟨h0, f, hh, hcond.1, ?_⟩
            injection h with h
            rw [Prod.mk.injEq] at h
            exact h.1.symm
        · right; right; right
          refine ⟨h0, hh, hcond.1, ?_⟩
          injection h with h
          rw [Prod.mk.injEq] at h
          exact h.1.symm

/-- C10.  In every reachable session state the snake is non-empty and
every segment lies in `[0, GRID_SIZE)` on both axes; consequently the
`prevSnake[0]` head access at the start of each tick is well-defined.
A tick never commits an out-of-bounds head: the losing head is
discarded. -/
theorem reachable_snake_wellformed (s : GameState) (h : Reachable s) :
    s.snake ≠ [] ∧ (∀ c ∈ s.snake, inGrid c)
    ∧ s.snake.head?.isSome = true := by
  induction h with
  | init =>
    refine ⟨by simp [initialState], ?_, rfl⟩
    intro c hc
    simp only [initialState, List.mem_singleton] at hc
    subst hc
    decide
  | key k hr ih => simpa only [handleKeyDown_snake] using ih
  | button d hr ih => simpa only [handleDirectionButton_snake] using ih
  | pause hr ih => exact ih
  | start ρ fuel hr hstart ih =>
    obtain ⟨f, hp, rfl⟩ := startGame_some_eq ρ fuel _ _ hstart
    refine ⟨by simp, ?_, rfl⟩
    intro c hc
    simp only [List.mem_singleton] at hc
    subst hc
    decide
  | tick ρ fuel hr hmv ih =>
    obtain ⟨hne, hmem, hhd⟩ := ih
    rcases moveSnake_some_cases ρ fuel _ _ _ hmv with
      rfl | rfl | ⟨h0, f, hh, hwall, rfl⟩ | ⟨h0, hh, hwall, rfl⟩
    · exact ⟨hne, hmem, hhd⟩
    · exact ⟨hne, hmem, hhd⟩
    · refine ⟨by simp, ?_, rfl⟩
      intro c hc
      rw [List.mem_cons] at hc
      rcases hc with rfl | hc
      · exact inGrid_of_hitsWall_false hwall
      · exact hmem c hc
    · refine ⟨dropLast_cons_ne_nil hne, ?_,
        head_isSome_of_ne_nil (dropLast_cons_ne_nil hne)⟩
      intro c hc
      have hc' := List.dropLast_subset _ hc
      rw [List.mem_cons] at hc'
      rcases hc' with rfl | hc'
      · exact inGrid_of_hitsWall_false hwall
      · exact hmem c hc'

/-- Witness for C10: the invariant evaluated at the initial state. -/
theorem reachable_snake_wellformed_witness :
    initialState.snake ≠ [] ∧ (∀ c ∈ initialState.snake, inGrid c)
    ∧ initialState.snake.head?.isSome = true :=
  reachable_snake_wellformed initialState Reachable.init
